import Mathlib

/-!
Shallow embedding of the `generate-assets` tool of the bevy-website
repository (src/generate-assets/src/lib.rs and github_client.rs).

The tool walks a directory tree of TOML descriptor files, building a tree
of `Section`/`Asset` nodes, and enriches each `Asset` with license and
bevy-version metadata fetched from github.com or a crates.io database dump.

External collaborators (the url crate's URL parser, the toml parser, the
cargo_toml manifest parser, the HTTP github client, the crates.io dump
lookup) are modelled as oracle functions carried in an `Env` record; the
logic of lib.rs itself is translated function by function.  Rust's
`?`-propagation is modelled with `Except`, and `unwrap`/`expect`/index
panics with a dedicated `Outcome.crash` constructor.
-/

namespace GenAssets

/-- The `Asset` struct of lib.rs (descriptor record).  `original_path` is
`#[serde(skip)]` in the source: never read from the TOML file. -/
structure Asset where
  name : String
  link : String
  description : String
  order : Option Nat
  image : Option String
  licenses : Option (List String)
  bevy_versions : Option (List String)
  original_path : Option String
deriving Repr, DecidableEq

/-- Model of Rust `str::split("OR")` on the character list: split at each
non-overlapping occurrence of the two-character pattern "OR", scanning
left to right. -/
def splitOR : List Char → List (List Char)
  | [] => [[]]
  | 'O' :: 'R' :: rest => [] :: splitOR rest
  | c :: rest =>
    match splitOR rest with
    | s :: ss => (c :: s) :: ss
    | [] => [[c]]

/-- Model of Rust `str::trim()` on the character list: drop whitespace
from both ends (restricted to ASCII whitespace, which covers every
claim's inputs). -/
def trimChars (l : List Char) : List Char :=
  ((l.dropWhile Char.isWhitespace).reverse.dropWhile Char.isWhitespace).reverse

/-- The license-expression parse of `Asset::set_license`:
`license.split("OR").map(|x| x.trim().to_string()).collect()`. -/
def licenseParse (license : String) : List String :=
  (splitOR license.toList).map (fun cs => String.mk (trimChars cs))

/-- Translation of `Asset::set_license`: parses a license string separated
with OR into a list, trimming whitespace of each part, and stores it in
`licenses`. -/
def Asset.set_license (a : Asset) (license : String) : Asset :=
  { a with licenses := some (licenseParse license) }

mutual

/-- The `AssetNode` enum of lib.rs: a tagged union of Section and Asset. -/
inductive AssetNode where
  | section (s : Section) : AssetNode
  | asset (a : Asset) : AssetNode

/-- The `Section` struct of lib.rs. -/
inductive Section where
  | mk (name : String) (content : List AssetNode) (template : Option String)
      (header : Option String) (order : Option Nat)
      (sort_order_reversed : Bool) : Section

end

def Section.name : Section → String
  | .mk n _ _ _ _ _ => n

def Section.content : Section → List AssetNode
  | .mk _ c _ _ _ _ => c

def Section.template : Section → Option String
  | .mk _ _ t _ _ _ => t

def Section.header : Section → Option String
  | .mk _ _ _ h _ _ => h

def Section.order : Section → Option Nat
  | .mk _ _ _ _ o _ => o

def Section.sort_order_reversed : Section → Bool
  | .mk _ _ _ _ _ r => r

/-- Translation of `section.content.push(node)` of the Rust source. -/
def Section.pushNode : Section → AssetNode → Section
  | .mk n c t h o r, node => .mk n (c ++ [node]) t h o r

/-- Translation of `AssetNode::name()`. -/
def AssetNode.name : AssetNode → String
  | .section s => s.name
  | .asset a => a.name

/-- Translation of `AssetNode::order()`: the declared order or the sentinel 99999. -/
def AssetNode.order : AssetNode → Nat
  | .section s => s.order.getD 99999
  | .asset a => a.order.getD 99999

/-! Dependency specifications and the version resolver -/

/-- The fields of `cargo_toml::DependencyDetail` read by the tool. -/
structure DependencyDetail where
  version : Option String
  git : Option String
  branch : Option String
deriving Repr, DecidableEq

/-- Translation of `cargo_toml::Dependency`: either a bare version string or a detailed
specification. -/
inductive Dependency where
  | simple (version : String)
  | detailed (detail : DependencyDetail)
deriving Repr, DecidableEq

/-- Translation of `get_bevy_version` of lib.rs: gets the bevy version from a dependency
specification.  Returns the version number if available; for a git
dependency returns either "main" or "git" for anything that is not
"main"; otherwise nothing. -/
def get_bevy_version (dep : Dependency) : Option String :=
  match dep with
  | .simple version => some version
  | .detailed detail =>
    match detail.version with
    | some version => some version
    | none =>
      if detail.git.isSome then
        if detail.branch = some "main" then some "main" else some "git"
      else
        none

/-! External collaborators, modelled as oracles -/

/-- The `GithubClient` of github_client.rs, modelled at its boundary:
`get_content(username, repository_name, content_path)` and
`get_license(username, repository_name)`, both fallible. -/
structure GithubClient where
  get_content : String → String → String → Except String String
  get_license : String → String → Except String String

/-- The fields of `cargo_toml::Package` read by the tool: just the
optional `license` field. -/
structure Package where
  license : Option String
deriving Repr, DecidableEq

/-- The fields of `cargo_toml::Manifest` read by the tool: the optional
`[package]` section and the dependency map (modelled as an association
list in the map's iteration order). -/
structure Manifest where
  package : Option Package
  dependencies : List (String × Dependency)
deriving Repr, DecidableEq

/-- One reverse-dependency record of the crates.io dump, at the boundary
described by the tool's destructuring `(_, _, license, _, deps)`: the
license string and the fallible dependency-version list (pairs of
version-requirement string and feature data). -/
structure RevDep where
  license : String
  deps : Except String (List (String × String))

/-- The crates.io database dump, modelled at the boundary used by the
tool: `get_rev_dependency(db, crate_name, "bevy")` returns a fallible
list of optional records (the source flattens away the `None`s). -/
structure CratesIoDb where
  get_rev_dependency : String → String → Except String (List (Option RevDep))

/-- The result of `url::Url::parse`: the tool reads `host_str()` and
`path_segments()` (the latter is `None` exactly for cannot-be-a-base
URLs, which never have a host). -/
structure ParsedUrl where
  host : Option String
  path_segments : Option (List String)

/-- The ambient collaborators of the tool: the url parser, the toml
parser (returning a top-level key/value table), the cargo_toml manifest
parser, and the two optional enrichment collaborators. -/
structure Env where
  urlParse : String → Except String ParsedUrl
  parseManifest : String → Except String Manifest
  github_client : Option GithubClient
  crates_io_db : Option CratesIoDb

/-! Metadata resolvers -/

/-- Translation of `get_metadata_from_github` of lib.rs.  Fetches Cargo.toml via the
client, parses it, resolves the license — from the package metadata if a
`[package]` section is present (`if let Some(Package { license, .. })`),
else from the repo-level license endpoint — and resolves the bevy
version from the first dependency key starting with "bevy".  Errors of
`get_content` (with its context message) and of the manifest parse
propagate; they occur before any mutation of the asset. -/
def get_metadata_from_github (a : Asset) (client : GithubClient)
    (parseManifest : String → Except String Manifest)
    (username repository_name : String) : Except String Asset :=
  match client.get_content username repository_name "Cargo.toml" with
  | .error e => .error ("Failed to get content from github: " ++ e)
  | .ok content =>
    match parseManifest content with
    | .error e => .error e
    | .ok cargo_manifest =>
      let license : Option String :=
        match cargo_manifest.package with
        | some p => p.license
        | none => (client.get_license username repository_name).toOption
      let a1 := match license with
        | some l => a.set_license l
        | none => a
      let version : Option String :=
        ((cargo_manifest.dependencies.map Prod.fst).find?
            (fun k => k.startsWith "bevy")).bind
          (fun key => (cargo_manifest.dependencies.lookup key).bind
            get_bevy_version)
      let a2 := match version with
        | some v => { a1 with bevy_versions := some [v] }
        | none => a1
      .ok a2

/-- Model of Rust `str::replace('^', "")` on the version-requirement
string: remove every caret character. -/
def stripCarets (s : String) : String :=
  String.mk (s.toList.filter (fun c => c ≠ '^'))

/-- The body of the `for (_, _, license, _, deps)` loop of
`get_metadata_from_crates_io_db`: overwrite `licenses` with the record's
license; if the record's dependency list is `Ok` and non-empty, overwrite
`bevy_versions` with the first entry's version, all `^` removed. -/
def applyRevDep (a : Asset) (r : RevDep) : Asset :=
  let a := a.set_license r.license
  match r.deps with
  | .ok ((version, _) :: _) =>
    { a with bevy_versions := some [stripCarets version] }
  | _ => a

/-- Translation of `get_metadata_from_crates_io_db` of lib.rs: query the reverse
dependencies of "bevy" for the crate, flatten the optional records, and
fold the loop body over them in order.  The query error propagates; it
occurs before any mutation of the asset. -/
def get_metadata_from_crates_io_db (a : Asset) (db : CratesIoDb)
    (crate_name : String) : Except String Asset :=
  match db.get_rev_dependency crate_name "bevy" with
  | .error e => .error e
  | .ok rows => .ok ((rows.filterMap id).foldl applyRevDep a)

/-! Source dispatcher -/

/-- Result of running a fragment of the tool: normal return, an error
propagated with `?`, or a Rust panic (`unwrap`, `expect`, out-of-bounds
indexing). -/
inductive Outcome (α : Type) where
  | ok (a : α)
  | err (e : String)
  | crash (msg : String)
deriving Repr

/-- Translation of `get_extra_metadata` of lib.rs.  Parses the asset's link
(`?`-propagating a parse error), unwraps `path_segments()` (a panic on
`None`), then dispatches on the host string: github.com with a client
supplied indexes segments 0 and 1 (panicking when absent) and runs the
github resolver, crates.io with a db supplied indexes segment 1 and runs
the registry resolver; resolver errors are caught and logged; any other
host does nothing. -/
def get_extra_metadata (env : Env) (a : Asset) : Outcome Asset :=
  match env.urlParse a.link with
  | .error e => .err e
  | .ok url =>
    match url.path_segments with
    | none => .crash "called Option.unwrap on a None value"
    | some segments =>
      match url.host with
      | some host =>
        if host = "github.com" then
          match env.github_client with
          | some client =>
            match segments with
            | username :: repository_name :: _ =>
              match get_metadata_from_github a client env.parseManifest
                  username repository_name with
              | .error _ => .ok a
              | .ok a2 => .ok a2
            | _ => .crash "index out of bounds"
          | none => .ok a
        else if host = "crates.io" then
          match env.crates_io_db with
          | some db =>
            match segments with
            | _ :: crate_name :: _ =>
              match get_metadata_from_crates_io_db a db crate_name with
              | .error _ => .ok a
              | .ok a2 => .ok a2
            | _ => .crash "index out of bounds"
          | none => .ok a
        else .ok a
      | none => .ok a

/-! TOML descriptor loading (serde-derived strict schema) -/

/-- A top-level TOML value, restricted to the shapes the tool reads. -/
inductive TomlVal where
  | str (s : String)
  | int (n : Int)
  | bool (b : Bool)
  | arrStr (xs : List String)
deriving Repr, DecidableEq

/-- The field names of the `Asset` struct that serde deserializes
(`original_path` is `#[serde(skip)]`, hence not among them). -/
def assetFields : List String :=
  ["name", "link", "description", "order", "image", "licenses",
   "bevy_versions"]

/-- An optional string field of the descriptor: absent is `None`, a
string value is accepted, anything else is a type error. -/
def readOptStr : Option TomlVal → Except String (Option String)
  | none => .ok none
  | some (.str s) => .ok (some s)
  | some _ => .error "invalid type: expected a string"

/-- An optional `usize` field: absent is `None`, a non-negative integer
is accepted, anything else (negative included) is an error. -/
def readOptNat : Option TomlVal → Except String (Option Nat)
  | none => .ok none
  | some (.int (.ofNat m)) => .ok (some m)
  | some (.int (.negSucc _)) => .error "invalid value: negative"
  | some _ => .error "invalid type: expected an integer"

/-- An optional list-of-strings field. -/
def readOptStrList : Option TomlVal → Except String (Option (List String))
  | none => .ok none
  | some (.arrStr xs) => .ok (some xs)
  | some _ => .error "invalid type: expected an array of strings"

/-- A required string field: absent is a missing-field error. -/
def readReqStr (field : String) : Option TomlVal → Except String String
  | none => .error ("missing field " ++ field)
  | some (.str s) => .ok s
  | some _ => .error "invalid type: expected a string"

/-- The serde-derived `Deserialize` for `Asset` applied to a parsed
top-level TOML table, following the struct declaration of lib.rs:
`#[serde(deny_unknown_fields)]` rejects any key outside the declared
fields; `name`, `link`, `description` are required; the `Option` fields
default to `None` when absent; the skipped `original_path` is
initialized to `None`. -/
def assetFromToml (tbl : List (String × TomlVal)) : Except String Asset :=
  if !(tbl.all (fun kv => assetFields.contains kv.1)) then
    .error "unknown field"
  else do
    let name ← readReqStr "name" (tbl.lookup "name")
    let link ← readReqStr "link" (tbl.lookup "link")
    let description ← readReqStr "description" (tbl.lookup "description")
    let order ← readOptNat (tbl.lookup "order")
    let image ← readOptStr (tbl.lookup "image")
    let licenses ← readOptStrList (tbl.lookup "licenses")
    let bevy_versions ← readOptStrList (tbl.lookup "bevy_versions")
    .ok { name, link, description, order, image, licenses, bevy_versions,
          original_path := none }

/-! The directory walker -/

/-- A filesystem subtree: a directory with named entries, or a file with
text content. -/
inductive FsEntry where
  | dir (name : String) (entries : List FsEntry)
  | file (name : String) (content : String)

def FsEntry.name : FsEntry → String
  | .dir n _ => n
  | .file n _ => n

/-- The characters after the last dot of the list, or `none` when it
contains no dot. -/
def afterLastDot : List Char → Option (List Char)
  | [] => none
  | '.' :: rest =>
    match afterLastDot rest with
    | some e => some e
    | none => some rest
  | _ :: rest => afterLastDot rest

/-- Model of `Path::extension()` of the Rust standard library on a file
name: the part after the last dot, `none` when there is no dot or when
the only dot is the leading one of a hidden file (".gitignore") — the
leading character, dot or not, belongs to the stem. -/
def extension (name : String) : Option String :=
  match name.toList with
  | [] => none
  | _ :: rest =>
    match afterLastDot rest with
    | some e => some (String.mk e)
    | none => none

/-- The `_category.toml` handling of `visit_dirs` for a sub-directory
(lib.rs lines 80-97): when an entry of that name exists, read and parse
it (panicking on failure, and on reading a directory of that name), and
extract `order` (integer, cast `as usize`, i.e. reduced mod 2^64) and
`sort_order_reversed` (boolean, default false).  The toml syntax parser
for `toml::Value` is an oracle. -/
def readCategoryConfig (tomlTable : String → Except String (List (String × TomlVal)))
    (entries : List FsEntry) : Outcome (Option Nat × Bool) :=
  match entries.find? (fun e => e.name = "_category.toml") with
  | none => .ok (none, false)
  | some (.dir _ _) => .crash "read_to_string failed on a directory"
  | some (.file _ content) =>
    match tomlTable content with
    | .error _ => .crash "called Result.unwrap on an Err value"
    | .ok tbl =>
      let order := (tbl.lookup "order").bind
        (fun v => match v with
          | .int n => some ((n % (2 ^ 64 : Int)).toNat)
          | _ => none)
      let rev := ((tbl.lookup "sort_order_reversed").bind
        (fun v => match v with
          | .bool b => some b
          | _ => none)).getD false
      .ok (order, rev)

/-- The toml syntax parser oracle used by `visit_dirs`, added to the
collaborators: `toml::from_str` produces a top-level key/value table,
from which `assetFromToml` (the serde derive) extracts the `Asset`. -/
structure WalkEnv extends Env where
  tomlTable : String → Except String (List (String × TomlVal))

mutual

/-- One iteration of the `for entry in fs::read_dir(dir)` loop of
`visit_dirs`: skip `.git`/`.github` entries; for a sub-directory read
its category config, recurse, and push the child Section; for a file
skip `_category.toml`, panic when there is no extension
(`expect("file must have an extension")`), skip non-toml extensions,
otherwise parse the descriptor (panicking on failure), set
`original_path`, run `get_extra_metadata` (`?`-propagating its error),
and push the Asset. -/
def visitEntry (env : WalkEnv) (path : String) (e : FsEntry)
    (sec : Section) : Outcome Section :=
  if e.name = ".git" || e.name = ".github" then .ok sec
  else
    match e with
    | .dir folder entries =>
      match readCategoryConfig env.tomlTable entries with
      | .err e => .err e
      | .crash m => .crash m
      | .ok (order, sort_order_reversed) =>
        let new_section : Section :=
          .mk folder [] none none order sort_order_reversed
        match visitEntries env (path ++ "/" ++ folder) entries new_section with
        | .err e => .err e
        | .crash m => .crash m
        | .ok child => .ok (sec.pushNode (.section child))
    | .file fname content =>
      if fname = "_category.toml" then .ok sec
      else
        match extension fname with
        | none => .crash "file must have an extension"
        | some ext =>
          if ext ≠ "toml" then .ok sec
          else
            match env.tomlTable content with
            | .error _ => .crash "called Result.unwrap on an Err value"
            | .ok tbl =>
              match assetFromToml tbl with
              | .error _ => .crash "called Result.unwrap on an Err value"
              | .ok asset =>
                let asset := { asset with
                  original_path := some (path ++ "/" ++ fname) }
                match get_extra_metadata env.toEnv asset with
                | .err e => .err e
                | .crash m => .crash m
                | .ok asset => .ok (sec.pushNode (.asset asset))

/-- The loop of `visit_dirs` over the entries of one directory, threading
the section being filled; `?`-propagated errors and panics abort it. -/
def visitEntries (env : WalkEnv) (path : String) (es : List FsEntry)
    (sec : Section) : Outcome Section :=
  match es with
  | [] => .ok sec
  | e :: rest =>
    match visitEntry env path e sec with
    | .ok sec2 => visitEntries env path rest sec2
    | .err msg => .err msg
    | .crash m => .crash m

end

/-- Translation of `visit_dirs` of lib.rs: a no-op unless the path names a directory
(`if dir.is_dir()`); the root argument is `none` for a nonexistent
path. -/
def visit_dirs (env : WalkEnv) (path : String) (root : Option FsEntry)
    (sec : Section) : Outcome Section :=
  match root with
  | some (.dir _ entries) => visitEntries env path entries sec
  | _ => .ok sec

/-- Translation of `parse_assets` of lib.rs: build the fixed synthetic root Section and
run `visit_dirs` on the root path (whose filesystem resolution is the
`root` argument: `none` when nothing exists at the path). -/
def parse_assets (env : WalkEnv) (asset_dir : String)
    (root : Option FsEntry) : Outcome Section :=
  let asset_root_section : Section :=
    .mk "Assets" [] (some "assets.html") (some "Assets") none false
  visit_dirs env asset_dir root asset_root_section

/-! Helper definitions used to state the theorems, and concrete example
collaborators used by closed witnesses and counterexamples -/

/-- Whether an `Except` computation succeeded. -/
def exceptIsOk {α : Type} : Except String α → Bool
  | .ok _ => true
  | .error _ => false

/-- The version contribution of one reverse-dependency record: the first
entry's version-requirement string with every caret removed, when the
record's dependency list is `Ok` and non-empty. -/
def revDepVersion (r : RevDep) : Option String :=
  match r.deps with
  | .ok ((version, _) :: _) => some (stripCarets version)
  | _ => none

/-- The fixed synthetic root Section built by `parse_assets`. -/
def assetRootSection : Section :=
  .mk "Assets" [] (some "assets.html") (some "Assets") none false

/-- A concrete descriptor record with no enrichment data, used by closed
witnesses and counterexamples. -/
def exAsset : Asset :=
  { name := "ex", link := "https://github.com/u/r", description := "d",
    order := none, image := none, licenses := none, bevy_versions := none,
    original_path := none }

/-- A concrete github client whose content fetch succeeds and whose
repo-level license endpoint successfully answers "MIT". -/
def cexClient : GithubClient :=
  { get_content := fun _ _ _ => .ok "manifest-text",
    get_license := fun _ _ => .ok "MIT" }

/-- A concrete manifest with a `[package]` section that has no license
field, and no dependencies. -/
def cexManifest : Manifest :=
  { package := some { license := none }, dependencies := [] }

/-- A concrete manifest parser returning `cexManifest` for every input. -/
def cexParseManifest : String → Except String Manifest :=
  fun _ => .ok cexManifest

/-- A concrete walker environment whose oracles all fail and with no
enrichment collaborators supplied. -/
def trivialWalkEnv : WalkEnv :=
  { urlParse := fun _ => .error "unused",
    parseManifest := fun _ => .error "unused",
    github_client := none,
    crates_io_db := none,
    tomlTable := fun _ => .error "unused" }

/-- A concrete github client all of whose calls fail. -/
def failClient : GithubClient :=
  { get_content := fun _ _ _ => .error "http failure",
    get_license := fun _ _ => .error "http failure" }

/-- A concrete environment with a supplied (always-failing) github client
whose URL parser reports host github.com with the single empty path
segment, as the url crate does for "https://github.com/". -/
def ghSlashEnv : Env :=
  { urlParse := fun _ => .ok { host := some "github.com",
                               path_segments := some [""] },
    parseManifest := fun _ => .error "unused",
    github_client := some failClient,
    crates_io_db := none }

/-- A concrete walker environment for the resolver-failure witness: the
descriptor "descriptor-text" parses to the fields of `exAsset`, the link
parses to host github.com with segments ["u", "r"], and the supplied
github client fails every call. -/
def resolverFailWalkEnv : WalkEnv :=
  { urlParse := fun _ => .ok { host := some "github.com",
                               path_segments := some ["u", "r"] },
    parseManifest := fun _ => .error "unused",
    github_client := some failClient,
    crates_io_db := none,
    tomlTable := fun _ => .ok
      [("name", .str "ex"), ("link", .str "https://github.com/u/r"),
       ("description", .str "d")] }

/-- A concrete manifest whose `[package]` section declares a license. -/
def licManifest : Manifest :=
  { package := some { license := some "MIT OR Apache-2.0" },
    dependencies := [] }

/-- A concrete manifest parser returning `licManifest` for every input. -/
def licParseManifest : String → Except String Manifest :=
  fun _ => .ok licManifest

/-- Concrete reverse-dependency rows: two records (with a skipped `None`
between them) carrying different licenses and bevy requirements. -/
def cexRows : List (Option RevDep) :=
  [some { license := "MIT", deps := .ok [("^0.10", "f")] },
   none,
   some { license := "Apache-2.0 OR MIT", deps := .ok [("^0.11", "f")] }]

/-- A concrete crates.io dump returning `cexRows` for every query. -/
def cexDb : CratesIoDb :=
  { get_rev_dependency := fun _ _ => .ok cexRows }

/-- A concrete environment whose URL parser reports the unrecognized
host example.com, with a github client supplied. -/
def otherHostEnv : Env :=
  { urlParse := fun _ => .ok { host := some "example.com",
                               path_segments := some ["x"] },
    parseManifest := fun _ => .error "unused",
    github_client := some failClient,
    crates_io_db := none }

/-- A concrete environment reporting host github.com but with no github
client supplied. -/
def ghNoClientEnv : Env :=
  { urlParse := fun _ => .ok { host := some "github.com",
                               path_segments := some ["u", "r"] },
    parseManifest := fun _ => .error "unused",
    github_client := none,
    crates_io_db := none }

/-- A concrete environment reporting host crates.io but with no registry
dump supplied. -/
def cratesNoDbEnv : Env :=
  { urlParse := fun _ => .ok { host := some "crates.io",
                               path_segments := some ["crates", "x"] },
    parseManifest := fun _ => .error "unused",
    github_client := none,
    crates_io_db := none }

/-! Theorems -/

/-- C5: for every raw license expression string, the License Parser
(`Asset.set_license`) returns the ordered list obtained by splitting the
string on the literal case-sensitive token "OR" and trimming whitespace
from each resulting segment, with no de-duplication and no identifier
validation; in particular "MIT OR Apache-2.0" yields
["MIT", "Apache-2.0"], "MIT" yields ["MIT"], and "  MIT   OR   MIT "
yields ["MIT", "MIT"]. -/
theorem set_license_splits_on_OR :
    (∀ (a : Asset) (s : String),
      (a.set_license s).licenses
        = some ((splitOR s.toList).map (fun cs => String.mk (trimChars cs)))) ∧
    (exAsset.set_license "MIT OR Apache-2.0").licenses
      = some ["MIT", "Apache-2.0"] ∧
    (exAsset.set_license "MIT").licenses = some ["MIT"] ∧
    (exAsset.set_license "  MIT   OR   MIT ").licenses
      = some ["MIT", "MIT"] := by
  refine ⟨fun a s => rfl, by decide, by decide, by decide⟩

/-- C6: the Version Resolver (`get_bevy_version`) returns the string
verbatim for a bare version string; the version field's value for a
detailed spec with an explicit version; "main" for a detailed spec with
no version but a git reference with branch "main"; "git" for a detailed
spec with a git reference and any other branch/ref; and nothing when the
spec has neither a version nor a git reference. -/
theorem get_bevy_version_cases :
    (∀ v : String, get_bevy_version (.simple v) = some v) ∧
    (∀ (d : DependencyDetail) (v : String), d.version = some v →
      get_bevy_version (.detailed d) = some v) ∧
    (∀ (d : DependencyDetail) (g : String), d.version = none →
      d.git = some g → d.branch = some "main" →
      get_bevy_version (.detailed d) = some "main") ∧
    (∀ (d : DependencyDetail) (g : String), d.version = none →
      d.git = some g → d.branch ≠ some "main" →
      get_bevy_version (.detailed d) = some "git") ∧
    (∀ d : DependencyDetail, d.version = none → d.git = none →
      get_bevy_version (.detailed d) = none) := by
  refine ⟨fun v => rfl, ?_, ?_, ?_, ?_⟩
  · rintro ⟨dv, dg, db⟩ v h
    simp_all [get_bevy_version]
  · rintro ⟨dv, dg, db⟩ g h1 h2 h3
    simp_all [get_bevy_version]
  · rintro ⟨dv, dg, db⟩ g h1 h2 h3
    simp_all [get_bevy_version]
  · rintro ⟨dv, dg, db⟩ h1 h2
    simp_all [get_bevy_version]

/-- Witness for C6: the resolver evaluated on the five concrete
specification shapes of the claim. -/
theorem get_bevy_version_cases_witness :
    get_bevy_version (.simple "0.10") = some "0.10" ∧
    get_bevy_version (.detailed ⟨some "0.11", none, none⟩) = some "0.11" ∧
    get_bevy_version (.detailed ⟨none, some "u", some "main"⟩)
      = some "main" ∧
    get_bevy_version (.detailed ⟨none, some "u", some "dev"⟩)
      = some "git" ∧
    get_bevy_version (.detailed ⟨none, none, none⟩) = none :=
  ⟨get_bevy_version_cases.1 "0.10",
   get_bevy_version_cases.2.1 _ "0.11" rfl,
   get_bevy_version_cases.2.2.1 _ "u" rfl rfl rfl,
   get_bevy_version_cases.2.2.2.1 _ "u" rfl rfl (by decide),
   get_bevy_version_cases.2.2.2.2 _ rfl rfl⟩

/-- C1 counterexample: a manifest whose `[package]` section has no
license field does not trigger the repository-level license fallback.
The concrete client's license endpoint answers "MIT", the fetched
manifest parses to a package with no license, yet the resolver returns
the asset unchanged, `licenses` unset — the claim's resolution order
would have set it to ["MIT"]. -/
theorem github_fallback_not_queried_cex :
    cexManifest.package = some { license := none } ∧
    cexClient.get_license "u" "r" = .ok "MIT" ∧
    cexParseManifest "manifest-text" = .ok cexManifest ∧
    get_metadata_from_github exAsset cexClient cexParseManifest "u" "r"
      = .ok exAsset ∧
    exAsset.licenses = none :=
  ⟨rfl, rfl, rfl, rfl, rfl⟩

/-- C1 amended: after the fetched manifest parses successfully, license
resolution follows this order: a license field in the manifest's package
metadata is used if present; the host's repository-level license
endpoint is queried only when the manifest has no package metadata
section at all; a manifest whose package section lacks a license field
leaves `licenses` unchanged without consulting the endpoint; if no
source yields a license, `licenses` stays as it was (unset if previously
unset). -/
theorem github_license_resolution (a : Asset) (client : GithubClient)
    (pm : String → Except String Manifest) (u r c : String) (m : Manifest)
    (hc : client.get_content u r "Cargo.toml" = .ok c)
    (hm : pm c = .ok m) :
    (get_metadata_from_github a client pm u r).toOption.map Asset.licenses
      = some (match m.package with
        | some p =>
          match p.license with
          | some l => some (licenseParse l)
          | none => a.licenses
        | none =>
          match (client.get_license u r).toOption with
          | some l => some (licenseParse l)
          | none => a.licenses) := by
  unfold get_metadata_from_github
  rw [hc]
  dsimp only
  rw [hm]
  dsimp only
  rcases m with ⟨pkg, deps⟩
  dsimp only
  rcases pkg with _ | ⟨lic⟩
  · rcases hg : client.get_license u r with e | l
    all_goals dsimp only [Except.toOption, Option.map]
    all_goals split
    all_goals simp [Asset.set_license]
  · rcases lic with _ | l
    all_goals dsimp only [Except.toOption, Option.map]
    all_goals split
    all_goals simp [Asset.set_license]

/-- Witness for the amended C1: a concrete client and manifest with a
package license, resolved to the parsed license list. -/
theorem github_license_resolution_witness :
    (get_metadata_from_github exAsset cexClient licParseManifest "u"
      "r").toOption.map Asset.licenses
      = some (some ["MIT", "Apache-2.0"]) := by
  have h := github_license_resolution exAsset cexClient licParseManifest
    "u" "r" "manifest-text" licManifest rfl rfl
  exact h

/-- Each record overwrites `licenses` with its parsed license string. -/
theorem applyRevDep_licenses (a : Asset) (r : RevDep) :
    (applyRevDep a r).licenses = some (licenseParse r.license) := by
  rcases r with ⟨lic, d⟩
  rcases d with e | ls
  · rfl
  · rcases ls with _ | ⟨⟨v, f⟩, rest⟩ <;> rfl

/-- Each record overwrites `bevy_versions` exactly when its dependency
list is present and non-empty. -/
theorem applyRevDep_versions (a : Asset) (r : RevDep) :
    (applyRevDep a r).bevy_versions
      = (match revDepVersion r with
         | some v => some [v]
         | none => a.bevy_versions) := by
  rcases r with ⟨lic, d⟩
  rcases d with e | ls
  · rfl
  · rcases ls with _ | ⟨⟨v, f⟩, rest⟩ <;> rfl

/-- Folding the loop body over a non-empty record list leaves the last
record's parsed license in `licenses`. -/
theorem foldl_applyRevDep_licenses :
    ∀ (rs : List RevDep) (a : Asset) (h : rs ≠ []),
      (rs.foldl applyRevDep a).licenses
        = some (licenseParse (rs.getLast h).license)
  | [], _, h => absurd rfl h
  | [r], a, _ => by
    simp [List.foldl, applyRevDep_licenses]
  | r :: r2 :: rest, a, _ => by
    rw [List.foldl_cons,
      foldl_applyRevDep_licenses (r2 :: rest) _ (List.cons_ne_nil _ _),
      List.getLast_cons (List.cons_ne_nil _ _)]

/-- Folding the loop body over a record list leaves in `bevy_versions`
the version contribution of the last record that has one, and the
initial value when none has one. -/
theorem foldl_applyRevDep_versions :
    ∀ (rs : List RevDep) (a : Asset),
      (rs.foldl applyRevDep a).bevy_versions
        = (match (rs.filterMap revDepVersion).getLast? with
           | some v => some [v]
           | none => a.bevy_versions)
  | [], a => rfl
  | r :: rest, a => by
    rw [List.foldl_cons, foldl_applyRevDep_versions rest]
    rcases hf : revDepVersion r with _ | v
    · rw [List.filterMap_cons_none hf]
      rcases hL : (rest.filterMap revDepVersion).getLast? with _ | w <;>
        simp [applyRevDep_versions, hf]
    · rw [List.filterMap_cons_some hf]
      rcases hL : (rest.filterMap revDepVersion).getLast? with _ | w <;>
        simp [applyRevDep_versions, hf, List.getLast?_cons, hL]

/-- C3: in the Registry Resolver, for every non-empty list of matching
reverse-dependency records, `licenses` is overwritten with each record's
parsed license string in iteration order so that the last record's
license wins; and whenever a record's dependency-version list is present
and non-empty, `bevy_versions` is overwritten with a one-element list
containing the first entry's version with the caret range prefix
stripped (again, the last such record wins; when no record has a
version, `bevy_versions` keeps its previous value). -/
theorem crates_io_last_record_wins (a : Asset) (db : CratesIoDb)
    (crate_name : String) (rows : List (Option RevDep))
    (hrows : db.get_rev_dependency crate_name "bevy" = .ok rows)
    (hne : rows.filterMap id ≠ []) :
    get_metadata_from_crates_io_db a db crate_name
      = .ok ((rows.filterMap id).foldl applyRevDep a) ∧
    ((rows.filterMap id).foldl applyRevDep a).licenses
      = some (licenseParse ((rows.filterMap id).getLast hne).license) ∧
    ((rows.filterMap id).foldl applyRevDep a).bevy_versions
      = (match ((rows.filterMap id).filterMap revDepVersion).getLast? with
         | some v => some [v]
         | none => a.bevy_versions) := by
  refine ⟨?_, foldl_applyRevDep_licenses _ _ hne,
    foldl_applyRevDep_versions _ _⟩
  unfold get_metadata_from_crates_io_db
  rw [hrows]

/-- Witness for C3: a concrete dump with two present records; the last
record's license "Apache-2.0 OR MIT" and stripped version "0.11" win. -/
theorem crates_io_last_record_wins_witness :
    get_metadata_from_crates_io_db exAsset cexDb "bevy_thing"
      = .ok ((cexRows.filterMap id).foldl applyRevDep exAsset) ∧
    ((cexRows.filterMap id).foldl applyRevDep exAsset).licenses
      = some ["Apache-2.0", "MIT"] ∧
    ((cexRows.filterMap id).foldl applyRevDep exAsset).bevy_versions
      = some ["0.11"] := by
  obtain ⟨h1, h2, h3⟩ := crates_io_last_record_wins exAsset cexDb
    "bevy_thing" cexRows rfl (List.cons_ne_nil _ _)
  refine ⟨h1, ?_, ?_⟩
  · rw [h2]
    decide
  · rw [h3]
    decide

/-- C2 counterexample: a directory entry that is a file with no
extension at all (here "LICENSE") is not skipped: the walker's
`expect("file must have an extension")` panics, aborting the walk, so
"the walk does not fail or abort on such files" is false. -/
theorem walker_extensionless_file_cex :
    extension "LICENSE" = none ∧
    visitEntries trivialWalkEnv "assets" [.file "LICENSE" ""]
        assetRootSection
      = .crash "file must have an extension" := by
  constructor
  · decide
  · simp [visitEntries, visitEntry, extension, afterLastDot, FsEntry.name]

/-- C2 amended: for every directory entry that is a file, the walker
skips (continues past, without loading and without error) the Category
Config file `_category.toml` and every file that has an extension other
than `toml`; but a file whose name has no extension at all (and is not
named `.git`/`.github`/`_category.toml`) makes the walk abort with the
panic "file must have an extension" instead of being skipped; only files
ending in `.toml` are loaded as Assets. -/
theorem walker_file_skip_behavior :
    (∀ (env : WalkEnv) (path n c : String) (sec : Section),
      (n = "_category.toml" ∨ (∃ e, extension n = some e ∧ e ≠ "toml")) →
      visitEntry env path (.file n c) sec = .ok sec) ∧
    (∀ (env : WalkEnv) (path n c : String) (sec : Section),
      n ≠ ".git" → n ≠ ".github" → n ≠ "_category.toml" →
      extension n = none →
      visitEntry env path (.file n c) sec
        = .crash "file must have an extension") := by
  constructor
  · rintro env path n c sec (rfl | ⟨e, he, hne⟩)
    · simp [visitEntry, FsEntry.name]
    · by_cases h1 : n = ".git"
      · subst h1
        rw [show extension ".git" = none from rfl] at he
        exact Option.noConfusion he
      by_cases h2 : n = ".github"
      · subst h2
        rw [show extension ".github" = none from rfl] at he
        exact Option.noConfusion he
      by_cases h3 : n = "_category.toml"
      · subst h3
        rw [show extension "_category.toml" = some "toml" from rfl] at he
        injection he with h4
        exact absurd h4.symm hne
      simp [visitEntry, FsEntry.name, h1, h2, h3, he, hne]
  · intro env path n c sec h1 h2 h3 he
    simp [visitEntry, FsEntry.name, h1, h2, h3, he]

/-- Witness for the amended C2: the category-config file and a file with
extension "txt" are skipped; the extensionless "LICENSE" aborts. -/
theorem walker_file_skip_behavior_witness :
    visitEntry trivialWalkEnv "assets" (.file "_category.toml" "") assetRootSection
      = .ok assetRootSection ∧
    visitEntry trivialWalkEnv "assets" (.file "notes.txt" "") assetRootSection
      = .ok assetRootSection ∧
    visitEntry trivialWalkEnv "assets" (.file "LICENSE" "") assetRootSection
      = .crash "file must have an extension" :=
  ⟨walker_file_skip_behavior.1 trivialWalkEnv "assets" "_category.toml" ""
      assetRootSection (Or.inl rfl),
   walker_file_skip_behavior.1 trivialWalkEnv "assets" "notes.txt" ""
      assetRootSection (Or.inr ⟨"txt", by decide, by decide⟩),
   walker_file_skip_behavior.2 trivialWalkEnv "assets" "LICENSE" ""
      assetRootSection (by decide) (by decide) (by decide) (by decide)⟩

/-- C4: for every Asset whose enrichment resolver (code-host or
registry) raises an error, the error is caught and logged rather than
propagated: the dispatcher returns the Asset unchanged, the Asset is
still appended to its parent Section's content with `licenses` and
`bevy_versions` exactly as loaded from the descriptor, and the walk over
the directory completes successfully. -/
theorem resolver_error_is_caught (env : WalkEnv)
    (path fname content : String) (sec : Section)
    (tbl : List (String × TomlVal)) (a0 a1 : Asset) (u : ParsedUrl)
    (s0 s1 : String) (srest : List String) (emsg : String)
    (hf1 : fname ≠ ".git") (hf2 : fname ≠ ".github")
    (hf3 : fname ≠ "_category.toml")
    (hext : extension fname = some "toml")
    (htoml : env.tomlTable content = .ok tbl)
    (hasset : assetFromToml tbl = .ok a0)
    (ha1 : a1 = { a0 with original_path := some (path ++ "/" ++ fname) })
    (hurl : env.urlParse a1.link = .ok u)
    (hseg : u.path_segments = some (s0 :: s1 :: srest))
    (hres : (u.host = some "github.com" ∧
              ∃ client, env.github_client = some client ∧
                get_metadata_from_github a1 client env.parseManifest s0 s1
                  = .error emsg) ∨
            (u.host = some "crates.io" ∧
              ∃ db, env.crates_io_db = some db ∧
                get_metadata_from_crates_io_db a1 db s1 = .error emsg)) :
    get_extra_metadata env.toEnv a1 = .ok a1 ∧
    visitEntries env path [.file fname content] sec
      = .ok (sec.pushNode (.asset a1)) ∧
    a1.licenses = a0.licenses ∧ a1.bevy_versions = a0.bevy_versions := by
  subst ha1
  have hmeta : get_extra_metadata env.toEnv
      { a0 with original_path := some (path ++ "/" ++ fname) }
      = .ok { a0 with original_path := some (path ++ "/" ++ fname) } := by
    unfold get_extra_metadata
    rw [hurl]
    dsimp only
    rw [hseg]
    dsimp only
    rcases hres with ⟨hhost, client, hcl, herr⟩ | ⟨hhost, db, hdb, herr⟩
    · rw [hhost]
      dsimp only
      rw [if_pos rfl, hcl]
      dsimp only
      rw [herr]
    · rw [hhost]
      dsimp only
      rw [if_neg (by decide), if_pos rfl, hdb]
      dsimp only
      rw [herr]
  refine ⟨hmeta, ?_, rfl, rfl⟩
  simp [visitEntries, visitEntry, FsEntry.name, hf1, hf2, hf3, hext,
    htoml, hasset, hmeta]

/-- Witness for C4: a concrete walk in which the github client fails
every call; the asset is appended unchanged and the walk returns
successfully. -/
theorem resolver_error_is_caught_witness :
    get_extra_metadata resolverFailWalkEnv.toEnv
        { exAsset with original_path := some "assets/file.toml" }
      = .ok { exAsset with original_path := some "assets/file.toml" } ∧
    visitEntries resolverFailWalkEnv "assets" [.file "file.toml" "c"]
        assetRootSection
      = .ok (assetRootSection.pushNode
          (.asset { exAsset with original_path := some "assets/file.toml" })) := by
  obtain ⟨h1, h2, _, _⟩ := resolver_error_is_caught resolverFailWalkEnv
    "assets" "file.toml" "c" assetRootSection
    [("name", .str "ex"), ("link", .str "https://github.com/u/r"),
     ("description", .str "d")]
    exAsset { exAsset with original_path := some "assets/file.toml" }
    { host := some "github.com", path_segments := some ["u", "r"] }
    "u" "r" [] "Failed to get content from github: http failure"
    (by decide) (by decide) (by decide) rfl rfl rfl rfl rfl rfl
    (Or.inl ⟨rfl, failClient, rfl, rfl⟩)
  exact ⟨h1, h2⟩

/-- C7: for every Asset whose link's hostname is neither github.com nor
crates.io, and likewise for every Asset whose matching collaborator was
not supplied, the dispatcher performs no collaborator call, raises no
error, and returns the Asset unchanged (`licenses`/`bevy_versions` unset
if previously unset).  The path-segments hypothesis records the url
crate's guarantee that a URL with a host is not cannot-be-a-base and so
always has path segments. -/
theorem unrecognized_host_no_enrichment :
    (∀ (env : Env) (a : Asset) (u : ParsedUrl) (segs : List String)
      (h : String),
      env.urlParse a.link = .ok u → u.path_segments = some segs →
      u.host = some h → h ≠ "github.com" → h ≠ "crates.io" →
      get_extra_metadata env a = .ok a) ∧
    (∀ (env : Env) (a : Asset) (u : ParsedUrl) (segs : List String),
      env.urlParse a.link = .ok u → u.path_segments = some segs →
      u.host = some "github.com" → env.github_client = none →
      get_extra_metadata env a = .ok a) ∧
    (∀ (env : Env) (a : Asset) (u : ParsedUrl) (segs : List String),
      env.urlParse a.link = .ok u → u.path_segments = some segs →
      u.host = some "crates.io" → env.crates_io_db = none →
      get_extra_metadata env a = .ok a) := by
  refine ⟨?_, ?_, ?_⟩
  · intro env a u segs h hurl hseg hhost hg hc
    unfold get_extra_metadata
    rw [hurl]
    dsimp only
    rw [hseg]
    dsimp only
    rw [hhost]
    dsimp only
    rw [if_neg hg, if_neg hc]
  · intro env a u segs hurl hseg hhost hcl
    unfold get_extra_metadata
    rw [hurl]
    dsimp only
    rw [hseg]
    dsimp only
    rw [hhost]
    dsimp only
    rw [if_pos rfl, hcl]
  · intro env a u segs hurl hseg hhost hdb
    unfold get_extra_metadata
    rw [hurl]
    dsimp only
    rw [hseg]
    dsimp only
    rw [hhost]
    dsimp only
    rw [if_neg (by decide), if_pos rfl, hdb]

/-- Witness for C7: the dispatcher on a link resolving to example.com
(client supplied), to github.com with no client, and to crates.io with
no dump, each returning the asset unchanged. -/
theorem unrecognized_host_no_enrichment_witness :
    get_extra_metadata otherHostEnv exAsset = .ok exAsset ∧
    get_extra_metadata ghNoClientEnv exAsset = .ok exAsset ∧
    get_extra_metadata cratesNoDbEnv exAsset = .ok exAsset :=
  ⟨unrecognized_host_no_enrichment.1 otherHostEnv exAsset
      { host := some "example.com", path_segments := some ["x"] }
      ["x"] "example.com" rfl rfl rfl (by decide) (by decide),
   unrecognized_host_no_enrichment.2.1 ghNoClientEnv exAsset
      { host := some "github.com", path_segments := some ["u", "r"] }
      ["u", "r"] rfl rfl rfl rfl,
   unrecognized_host_no_enrichment.2.2 cratesNoDbEnv exAsset
      { host := some "crates.io", path_segments := some ["crates", "x"] }
      ["crates", "x"] rfl rfl rfl rfl⟩

/-- C9 (implicit): when the dispatcher matches a recognized host and its
collaborator is supplied, it indexes the URL's path segments
unconditionally — segments 0 and 1 for github.com, segment 1 for
crates.io — so the dispatch does not panic only under the precondition
that the link URL has at least that many path segments; and for the
well-formed URL "https://github.com/" (whose segment list is [""]) with
a supplied client, the dispatch panics. -/
theorem dispatch_indexes_segments :
    get_extra_metadata ghSlashEnv exAsset = .crash "index out of bounds" ∧
    (∀ (env : Env) (a : Asset) (u : ParsedUrl) (s0 s1 : String)
      (srest : List String) (client : GithubClient),
      env.urlParse a.link = .ok u →
      u.path_segments = some (s0 :: s1 :: srest) →
      u.host = some "github.com" → env.github_client = some client →
      ∃ a2, get_extra_metadata env a = .ok a2) ∧
    (∀ (env : Env) (a : Asset) (u : ParsedUrl) (s0 s1 : String)
      (srest : List String) (db : CratesIoDb),
      env.urlParse a.link = .ok u →
      u.path_segments = some (s0 :: s1 :: srest) →
      u.host = some "crates.io" → env.crates_io_db = some db →
      ∃ a2, get_extra_metadata env a = .ok a2) := by
  refine ⟨rfl, ?_, ?_⟩
  · intro env a u s0 s1 srest client hurl hseg hhost hcl
    unfold get_extra_metadata
    rw [hurl]
    dsimp only
    rw [hseg]
    dsimp only
    rw [hhost]
    dsimp only
    rw [if_pos rfl, hcl]
    dsimp only
    rcases get_metadata_from_github a client env.parseManifest s0 s1 with
      e | a2
    · exact ⟨a, rfl⟩
    · exact ⟨a2, rfl⟩
  · intro env a u s0 s1 srest db hurl hseg hhost hdb
    unfold get_extra_metadata
    rw [hurl]
    dsimp only
    rw [hseg]
    dsimp only
    rw [hhost]
    dsimp only
    rw [if_neg (by decide), if_pos rfl, hdb]
    dsimp only
    rcases get_metadata_from_crates_io_db a db s1 with e | a2
    · exact ⟨a, rfl⟩
    · exact ⟨a2, rfl⟩

/-- Witness for C9: on the environment of the C4 witness (host
github.com, segments ["u", "r"], client supplied) the dispatch returns
normally. -/
theorem dispatch_indexes_segments_witness :
    ∃ a2, get_extra_metadata resolverFailWalkEnv.toEnv exAsset = .ok a2 :=
  dispatch_indexes_segments.2.1 resolverFailWalkEnv.toEnv exAsset
    { host := some "github.com", path_segments := some ["u", "r"] }
    "u" "r" [] failClient rfl rfl rfl rfl

/-- C8: loading an Asset from a descriptor fails when any of the
required fields name, link, description is missing, and fails when any
field not in the Asset schema is present (strict schema,
`deny_unknown_fields`); a descriptor carrying exactly the known fields,
with the required ones present and every value well-typed, loads
successfully. -/
theorem asset_strict_schema :
    (∀ tbl : List (String × TomlVal),
      (tbl.lookup "name" = none ∨ tbl.lookup "link" = none ∨
        tbl.lookup "description" = none) →
      exceptIsOk (assetFromToml tbl) = false) ∧
    (∀ (tbl : List (String × TomlVal)) (k : String) (v : TomlVal),
      (k, v) ∈ tbl → assetFields.contains k = false →
      exceptIsOk (assetFromToml tbl) = false) ∧
    (∀ (n l d img : String) (o : Nat) (ls bs : List String),
      assetFromToml
        [("name", .str n), ("link", .str l), ("description", .str d),
         ("order", .int (Int.ofNat o)), ("image", .str img),
         ("licenses", .arrStr ls), ("bevy_versions", .arrStr bs)]
        = .ok { name := n, link := l, description := d, order := some o,
                image := some img, licenses := some ls,
                bevy_versions := some bs, original_path := none }) := by
  refine ⟨?_, ?_, ?_⟩
  · intro tbl h
    unfold assetFromToml
    split
    · rfl
    · rcases h with h | h | h
      · rw [h]
        rfl
      · rcases hn : readReqStr "name" (tbl.lookup "name") with e | nv
        · rfl
        · rw [h]
          rfl
      · rcases hn : readReqStr "name" (tbl.lookup "name") with e | nv
        · rfl
        · rcases hl : readReqStr "link" (tbl.lookup "link") with e | lv
          · rfl
          · rw [h]
            rfl
  · intro tbl k v hmem hk
    have hall : (tbl.all fun kv => assetFields.contains kv.1) = false := by
      by_contra hcon
      rw [Bool.not_eq_false] at hcon
      have hx := List.all_eq_true.mp hcon (k, v) hmem
      rw [hk] at hx
      exact Bool.false_ne_true hx
    unfold assetFromToml
    rw [hall]
    rfl
  · intro n l d img o ls bs
    rfl

/-- C10 (implicit): for every root path argument that does not name an
existing directory (nonexistent, or a file), `parse_assets` returns
success with the fixed synthetic root Section — name "Assets", template
"assets.html", header "Assets", no order, sort not reversed — and an
empty content list. -/
theorem parse_assets_non_directory :
    (∀ (env : WalkEnv) (dir : String),
      parse_assets env dir none = .ok assetRootSection) ∧
    (∀ (env : WalkEnv) (dir n c : String),
      parse_assets env dir (some (.file n c)) = .ok assetRootSection) ∧
    assetRootSection.name = "Assets" ∧
    assetRootSection.content = [] ∧
    assetRootSection.template = some "assets.html" ∧
    assetRootSection.header = some "Assets" ∧
    assetRootSection.order = none ∧
    assetRootSection.sort_order_reversed = false :=
  ⟨fun _ _ => rfl, fun _ _ _ _ => rfl, rfl, rfl, rfl, rfl, rfl, rfl⟩

end GenAssets
